import Mathlib

set_option autoImplicit false

/-!
Verification development for the TEP_demo backend: a shallow embedding of the
real-time decision-and-orchestration pipeline of `src/backend/app.py`
(live ingestion, anomaly gating, background dispatch, streaming), of
`src/backend/multi_llm_client.py` (parallel multi-backend dispatch with
per-backend failure capture), and of `src/backend/independent_llm_manager.py`
(the per-backend busy/analyzing/displaying/frozen lifecycle).

Machine floats of the source are embedded as `ℚ`, wall-clock times as `ℤ`,
and the opaque external collaborators (the PCA detector, the LLM backends)
as function parameters that return their observed outcome.
-/

namespace TepDemo

/-! ## multi_llm_client.py -/

/-- Outcome of one underlying backend call made by `_query_lmstudio`,
`_query_claude` or `_query_gemini`: either the returned text, or the message
of the exception the helper raised (timeouts, transport errors and
empty/invalid responses are all re-raised by those helpers as exceptions
carrying a message). -/
inductive CallOutcome where
  | ok (text : String)
  | exn (msg : String)
  deriving DecidableEq, Repr

/-- The per-model result dict built by `query_model` inside
`MultiLLMClient.get_analysis_from_all_models` (multi_llm_client.py lines
254-266): fields `analysis`, `response_time`, `status`. -/
structure ModelResult where
  analysis : String
  responseTime : ℚ
  status : String
  deriving DecidableEq, Repr

/-- The three model names `query_model` dispatches on (multi_llm_client.py
lines 240-245); any other active name falls into the `else` branch and yields
the text `Unknown model: ...` with status `success`. -/
def knownModels : List String := ["lmstudio", "anthropic", "gemini"]

/-- Embedding of `query_model model_name` (multi_llm_client.py lines 234-266). The inner
backend call is abstracted by its outcome `outcome m`; every exception raised
by the call is caught by the `except Exception` clause and becomes a
structured result with status `error` and text `Error: msg`. The wall-clock
`response_time` is abstracted by `rt`. -/
def queryModel (outcome : String → CallOutcome) (rt : String → ℚ) (m : String) :
    String × ModelResult :=
  if m ∈ knownModels then
    match outcome m with
    | .ok text => (m, ⟨text, rt m, "success"⟩)
    | .exn e => (m, ⟨"Error: " ++ e, rt m, "error"⟩)
  else
    (m, ⟨"Unknown model: " ++ m, rt m, "success"⟩)

/-- Return value of `get_analysis_from_all_models`: either the
`No models enabled` error dict (lines 225-230) or the assembled bundle with
the settled results and the list of queried models (lines 284-288). -/
inductive AllModelsReturn where
  | noModels
  | bundle (results : List (String × ModelResult)) (modelsQueried : List String)
  deriving DecidableEq, Repr

/-- Embedding of `MultiLLMClient.get_analysis_from_all_models`
(multi_llm_client.py lines 213-288). `asyncio.gather(*tasks, return_exceptions=True)` awaits every
launched call before the collection loop runs, so the bundle is assembled only
after every call has settled; since `query_model` is total (it catches every
exception), the `isinstance(result, Exception)` skip branch never fires and
each active model contributes exactly one entry to `results`. The embedding is
a total function: no exception escapes to the caller. -/
def getAnalysisFromAllModels (activeModels : List String)
    (outcome : String → CallOutcome) (rt : String → ℚ) : AllModelsReturn :=
  if activeModels = [] then .noModels
  else .bundle (activeModels.map (queryModel outcome rt)) activeModels

/-- Outcome of one attempt inside `_query_lmstudio`'s retry loop: a successful
response text, `asyncio.TimeoutError` from the 45 s `wait_for` ceiling, or any
other exception (transport error, empty/invalid response). -/
inductive AttemptOutcome where
  | ok (text : String)
  | timeoutErr
  | otherErr (msg : String)
  deriving DecidableEq, Repr

/-- The `for attempt in range(max_retries)` loop of
`MultiLLMClient._query_lmstudio` (multi_llm_client.py lines 326-409), with the
guarded backend call of each attempt abstracted by `outcomes attempt`.
Returns the result (`Except.error` for a raised exception) together with the
number of attempts actually made. On a timeout or any other error the loop
retries only while `attempt < max_retries - 1`; on the last attempt it
raises. -/
def lmstudioGo (outcomes : ℕ → AttemptOutcome) (maxRetries : ℕ) :
    ℕ → ℕ → Except String String × ℕ
  | attempt, 0 => (.error "LMStudio loop made no attempt", attempt)
  | attempt, fuel + 1 =>
    match outcomes attempt with
    | .ok text => (.ok text, attempt + 1)
    | .timeoutErr =>
      if attempt < maxRetries - 1 then
        lmstudioGo outcomes maxRetries (attempt + 1) fuel
      else
        (.error "LMStudio timeout (45s each - check if model is loaded)", attempt + 1)
    | .otherErr e =>
      if attempt < maxRetries - 1 then
        lmstudioGo outcomes maxRetries (attempt + 1) fuel
      else
        (.error ("LMStudio failed: " ++ e), attempt + 1)

/-- The `max_retries` constant of `_query_lmstudio` (multi_llm_client.py
line 293). -/
def lmstudioMaxRetries : ℕ := 1

/-- Embedding of `MultiLLMClient._query_lmstudio`, retry-loop part: attempts start at index
0 and at most `max_retries` loop iterations run. -/
def queryLmstudio (outcomes : ℕ → AttemptOutcome) : Except String String × ℕ :=
  lmstudioGo outcomes lmstudioMaxRetries 0 lmstudioMaxRetries

/-- Embedding of `MultiLLMClient._query_claude` (multi_llm_client.py lines 411-435): a
single call under a 30 s `wait_for`; a timeout or any other failure is
re-raised as an exception and there is no loop, so exactly one attempt is ever
made. The second component counts attempts. -/
def queryClaude (outcome : AttemptOutcome) : Except String String × ℕ :=
  match outcome with
  | .ok text => (.ok text, 1)
  | .timeoutErr => (.error "Claude timeout after 30 seconds", 1)
  | .otherErr e => (.error ("Claude failed: " ++ e), 1)

/-! ## independent_llm_manager.py -/

/-- The Python value of `IndependentModelManager.is_displaying`: `False`,
`True`, or the string `frozen` (independent_llm_manager.py lines 27, 125,
186). -/
inductive Displaying where
  | off
  | showing
  | frozen
  deriving DecidableEq, Repr

/-- Python truthiness of `is_displaying`: both `True` and the non-empty string
`frozen` are truthy. -/
def Displaying.truthy : Displaying → Bool
  | .off => false
  | .showing => true
  | .frozen => true

/-- The result dict built by `IndependentModelManager.analyze_fault`
(independent_llm_manager.py lines 110-116 and 135-141): fields `response`,
`analysis_duration`, `status` (the constant `model_name` and the timestamp are
omitted). -/
structure AnalysisRecord where
  response : String
  analysisDuration : ℚ
  status : String
  deriving DecidableEq, Repr

/-- Mutable state of one `IndependentModelManager` (independent_llm_manager.py
lines 26-30). -/
structure ManagerState where
  isAnalyzing : Bool
  isDisplaying : Displaying
  lastAnalysisTime : ℤ
  currentResult : Option AnalysisRecord
  resultTimestamp : Option ℤ
  deriving Repr

/-- Embedding of `IndependentModelManager.can_accept_request` (lines 61-63):
`not (is_analyzing or is_displaying)` under Python truthiness. -/
def canAcceptRequest (m : ManagerState) : Bool :=
  !(m.isAnalyzing || m.isDisplaying.truthy)

/-- Embedding of `IndependentModelManager._get_retry_time` (lines 174-181). A timestamp of
exactly 0 is falsy in Python, hence the extra check. -/
def getRetryTime (displayDuration : ℤ) (now : ℤ) (m : ManagerState) : ℤ :=
  if m.isAnalyzing then 0
  else if m.isDisplaying.truthy then
    match m.resultTimestamp with
    | some ts => if ts = 0 then 0 else max 0 (displayDuration - (now - ts))
    | none => 0
  else 0

/-- Return value of `analyze_fault`: the busy refusal dict (lines 80-85) or
the analysis/error record. -/
inductive FaultReturn where
  | busy (canRetryAfter : ℤ)
  | record (r : AnalysisRecord)
  deriving DecidableEq, Repr

/-- Embedding of `IndependentModelManager.analyze_fault` (independent_llm_manager.py lines
77-147). The backend call (`_query_*`) is abstracted by `outcome`, the
measured duration by `dur`, and `time.time()` by `now`. The returned `Bool`
records whether the `_display_timer` task was started (line 128): it is
started only on the success path. On the error path (lines 133-147) the
exception is caught, `is_analyzing` is cleared, `is_displaying` is left
untouched and a record with status `error` is returned. -/
def analyzeFault (displayDuration : ℤ) (dur : ℚ) (now : ℤ)
    (outcome : Except String String) (m : ManagerState) :
    ManagerState × FaultReturn × Bool :=
  if canAcceptRequest m then
    match outcome with
    | .ok text =>
      ({ m with
          isAnalyzing := false
          isDisplaying := Displaying.showing
          currentResult := some ⟨text, dur, "success"⟩
          resultTimestamp := some now },
       .record ⟨text, dur, "success"⟩, true)
    | .error e =>
      ({ m with isAnalyzing := false },
       .record ⟨"Error: " ++ e, 0, "error"⟩, false)
  else
    (m, .busy (getRetryTime displayDuration now m), false)

/-- Embedding of `IndependentModelManager._display_timer` (lines 167-172): when the sleep
of `display_duration` seconds ends it sets `is_displaying = False`
unconditionally — it does not check for the frozen state — and stamps
`last_analysis_time`. -/
def displayTimerFire (now : ℤ) (m : ManagerState) : ManagerState :=
  { m with isDisplaying := .off, lastAnalysisTime := now }

/-- Embedding of `IndependentModelManager.freeze_display` (lines 183-187):
`if self.is_displaying: self.is_displaying = "frozen"`. -/
def freezeDisplay (m : ManagerState) : ManagerState :=
  if m.isDisplaying.truthy then { m with isDisplaying := .frozen } else m

/-- Embedding of `IndependentModelManager.unfreeze_display` (lines 189-194). -/
def unfreezeDisplay (now : ℤ) (m : ManagerState) : ManagerState :=
  if m.isDisplaying = .frozen then
    { m with isDisplaying := .off, lastAnalysisTime := now }
  else m

/-! ## app.py : live ingestion state -/

/-- One aggregated live point as stored in `live_buffer` (`row_with_stats`,
app.py lines 621-626): the averaged feature values plus `t2_stat`, `anomaly`,
`time` (the aggregated index) and `threshold`. -/
structure AggRow (F : Type) where
  vals : F → ℚ
  t2 : ℚ
  anomaly : Bool
  time : ℕ
  threshold : ℚ

/-- The fields of `AnomalyStateTracker` read and written on the live trigger
path (app.py lines 122-135): `min_llm_interval`, `last_llm_request_time` and
`is_analyzing`. -/
structure TrackerState where
  minLlmInterval : ℤ
  lastLlmRequestTime : ℤ
  isAnalyzing : Bool
  deriving DecidableEq, Repr

/-- Embedding of `AnomalyStateTracker.can_send_llm_request` (app.py lines 224-239): the
request is allowed iff the time since the last request is at least
`min_llm_interval`. -/
def canSendLlmRequest (now : ℤ) (tr : TrackerState) : Bool :=
  decide (now - tr.lastLlmRequestTime ≥ tr.minLlmInterval)

/-- Embedding of `AnomalyStateTracker.mark_llm_request_sent` (app.py lines 241-244). -/
def markLlmRequestSent (now : ℤ) (tr : TrackerState) : TrackerState :=
  { tr with lastLlmRequestTime := now }

/-- Keep the most recent `n` elements of a list: the denotational model of a
`collections.deque` with `maxlen = n`. -/
def takeLast {α : Type} (n : ℕ) (xs : List α) : List α :=
  xs.drop (xs.length - n)

/-- Append to a `deque` with `maxlen = n`: the oldest element is evicted when
the deque is full. -/
def boundedAppend {α : Type} (n : ℕ) (xs : List α) (x : α) : List α :=
  takeLast n (xs ++ [x])

/-- Per-feature arithmetic mean over the accumulated raw rows:
`arr.mean(axis=0)` over `list(_recent_raw_rows)` (app.py lines 609-613). -/
def meanRow {F : Type} (rows : List (F → ℚ)) : F → ℚ :=
  fun c => (rows.map (fun r => r c)).sum / (rows.length : ℚ)

/-- Insert a scored feature into a list sorted by descending score. On the
distinct scores used in this development this reproduces the order of
`pandas.sort_values(ascending=False)`. -/
def insertDesc {F : Type} (p : F × ℚ) : List (F × ℚ) → List (F × ℚ)
  | [] => [p]
  | q :: qs => if q.2 < p.2 then p :: q :: qs else q :: insertDesc p qs

/-- Sort scored features by descending score (insertion sort). -/
def sortByScoreDesc {F : Type} : List (F × ℚ) → List (F × ℚ)
  | [] => []
  | p :: ps => insertDesc p (sortByScoreDesc ps)

/-- The top-contributing-feature computation of the trigger path (app.py lines
663-666, also `/preview/top6` lines 937-940):
`deltas = (buf_df.iloc[-1][FEATURE_COLUMNS] - buf_df[FEATURE_COLUMNS].mean()).abs().sort_values(ascending=False)`
followed by `list(deltas.index[:topk])`. `lastRow` is the final row of the
buffer and the column mean runs over the whole current buffer. -/
def topContributingFeatures {F : Type} (cols : List F) (topk : ℕ)
    (buf : List (AggRow F)) (lastRow : AggRow F) : List F :=
  ((sortByScoreDesc (cols.map (fun c =>
      (c, |lastRow.vals c - (buf.map (fun r => r.vals c)).sum / (buf.length : ℚ)|)))).take
    topk).map Prod.fst

/-- Modelled from the spec: the Jaccard similarity `|A ∩ B| / |A ∪ B|` between
two top-contributing feature sets. app.py keeps the runtime-configurable knob
`feature_shift_jaccard_threshold` for this quantity (lines 294 and 884-886)
but contains no code computing it. -/
def jaccardSim {F : Type} [DecidableEq F] (a b : List F) : ℚ :=
  (((a.filter (fun x => x ∈ b)).dedup).length : ℚ) / (((a ++ b).dedup).length : ℚ)

/-- The `llm` field of the `/ingest` acknowledgment dict (app.py lines
650-806). -/
inductive LlmStatus (F : Type) where
  | analyzingInProgress
  | rateLimited
  | triggered (topFeatures : List F)
  | notTriggered
  deriving DecidableEq, Repr

/-- Return value of one `/ingest` call (app.py lines 592-811). -/
inductive IngestResponse (F : Type) where
  /-- Response `{"status": "ignored", "reason": "missing_features", ...}` (line 600) -/
  | ignoredMissingFeatures
  /-- Response `{"status": "ok", "aggregating": True, "have": .., "need": ..}` (line 607) -/
  | aggregating (haveCount needCount : ℕ)
  /-- the `result` dict (lines 634-640) with its `llm` field -/
  | result (t2 : ℚ) (anomaly : Bool) (threshold : ℚ) (consecutive : ℕ)
      (aggIdx : ℕ) (llm : LlmStatus F)
  /-- Response `HTTPException(status_code=500, detail=str(e))` raised by the
  `except Exception` handler (lines 809-811) -/
  | serverError (detail : String)
  deriving DecidableEq, Repr

/-- Global mutable state of the live-ingestion pipeline of app.py (lines
287-312) together with the runtime-configurable knobs (lines 288-295) and the
background-task bookkeeping of the asyncio event loop. `pendingTasks` counts
`background_llm_analysis` tasks created by `asyncio.create_task` that have not
started running; `runningTasks` counts started but unfinished ones. -/
structure AppState (F : Type) where
  windowSize : ℕ
  decimationN : ℕ
  consecutiveRequired : ℕ
  jaccardThreshold : ℚ
  featureShiftMinInterval : ℤ
  recentRawRows : List (F → ℚ)
  liveBuffer : List (AggRow F)
  consecutiveAnomalies : ℕ
  aggregatedCount : ℕ
  tracker : TrackerState
  pendingTasks : ℕ
  runningTasks : ℕ
  lastLlmTriggerTime : ℤ
  lastLlmTopFeatures : List F

/-- One call of the `/ingest` handler `ingest_live_point` (app.py lines
592-811). `detector` abstracts `pca_model.process_data_point` and `thresh`
abstracts `pca_model.t2_threshold` (the detector is an opaque oracle); `now`
abstracts `time.time()`. The input is `none` when the posted data point does
not cover all `FEATURE_COLUMNS` (line 598), in which case the accumulator is
untouched.

The returned `Option (AggRow F)` is the aggregated row produced by this call
(the local `row_with_stats`), `none` while still accumulating.

On the trigger path (lines 660-804) the handler computes the top features,
creates the `background_llm_analysis` task (line 799, recorded in
`pendingTasks`), sets the `llm` field to `triggered` and resets
`_consecutive_anomalies` (line 802) — and then executes
`_last_llm_trigger_time = now` (line 803). No variable `now` is bound in the
handler or at module scope, so this statement raises `NameError`; the
`except Exception` handler at line 809 turns it into `HTTPException(500)`, the
acknowledgment dict is discarded, and neither `_last_llm_trigger_time` nor
`_last_llm_top_features` (line 804) is ever written. -/
def ingestStep {F : Type} (cols : List F) (topk : ℕ)
    (detector : (F → ℚ) → ℚ × Bool) (thresh : ℚ) (now : ℤ)
    (s : AppState F) (input : Option (F → ℚ)) :
    AppState F × IngestResponse F × Option (AggRow F) :=
  match input with
  | none => (s, .ignoredMissingFeatures, none)
  | some raw =>
    let acc := boundedAppend s.decimationN s.recentRawRows raw
    if acc.length < max 1 s.decimationN then
      ({ s with recentRawRows := acc }, .aggregating acc.length s.decimationN, none)
    else
      let row := meanRow acc
      let aggCount := s.aggregatedCount + 1
      let t2 := (detector row).1
      let isAnom := (detector row).2
      let rowStats : AggRow F := ⟨row, t2, isAnom, aggCount, thresh⟩
      let buf := boundedAppend s.windowSize s.liveBuffer rowStats
      let consec := if isAnom then s.consecutiveAnomalies + 1 else 0
      let s1 := { s with
        recentRawRows := []
        liveBuffer := buf
        aggregatedCount := aggCount
        consecutiveAnomalies := consec }
      let enoughContext := decide (buf.length ≥ max 5 (s.windowSize / 2))
      if isAnom && decide (consec ≥ max 1 s.consecutiveRequired) && enoughContext then
        if s.tracker.isAnalyzing then
          (s1, .result t2 isAnom thresh consec aggCount .analyzingInProgress, some rowStats)
        else if canSendLlmRequest now s.tracker then
          let _topFeatures := topContributingFeatures cols topk buf rowStats
          ({ s1 with
              pendingTasks := s1.pendingTasks + 1
              consecutiveAnomalies := 0 },
           .serverError "NameError: name now is not defined", some rowStats)
        else
          (s1, .result t2 isAnom thresh consec aggCount .rateLimited, some rowStats)
      else
        (s1, .result t2 isAnom thresh consec aggCount .notTriggered, some rowStats)

/-- The first statements of the `background_llm_analysis` body (app.py lines
679-680): set `is_analyzing = True`, then `mark_llm_request_sent()`. -/
def cycleStart (t : ℤ) (tr : TrackerState) : TrackerState :=
  markLlmRequestSent t { tr with isAnalyzing := true }

/-- The `finally` block of `background_llm_analysis` (app.py lines 789-796):
whichever branch ran, the analyzing flag is cleared (the `else` arm only logs
a warning). -/
def cycleFinally (tr : TrackerState) : TrackerState :=
  if tr.isAnalyzing then { tr with isAnalyzing := false } else tr

/-- Completion paths of one `background_llm_analysis` run (app.py lines
674-799): a fully or partially successful bundle, a bundle in which every
backend failed (failures are data inside `get_analysis_from_all_models`), the
overall 180 s `asyncio.wait_for` timeout (inner `except asyncio.TimeoutError`,
`llm_results = dict()`), or an exception escaping the body into the outer
`except` clauses. -/
inductive CycleOutcome where
  | success
  | partialFailure
  | allBackendsFailed
  | overallTimeout
  | bodyException (msg : String)
  deriving DecidableEq, Repr

/-- Effect of one complete `background_llm_analysis` run on the tracker
(app.py lines 674-796): the body first runs `cycleStart`; no other statement
of the body or its `except` clauses writes the tracker; the `finally` block
runs on every path. The returned `Bool` records whether
`_last_analysis_result` was stored (it is on every path that reaches line 738,
i.e. on every outcome except an exception escaping the body). -/
def backgroundLlmAnalysis (t : ℤ) (outcome : CycleOutcome) (tr : TrackerState) :
    TrackerState × Bool :=
  (cycleFinally (cycleStart t tr),
   match outcome with
   | .bodyException _ => false
   | _ => true)

/-- Payload of `POST /config/runtime` (app.py lines 849-890); absent keys are
`none`. -/
structure RuntimePayload where
  pcaWindowSize : Option ℕ
  faultTriggerConsecutiveStep : Option ℕ
  decimationNew : Option ℕ
  llmMinIntervalSeconds : Option ℤ
  featureShiftJaccardThreshold : Option ℚ
  featureShiftMinIntervalSeconds : Option ℤ

/-- Embedding of `update_runtime_config` (app.py lines 849-890). A window-size update
rebuilds `live_buffer` as `deque(prev[-W:], maxlen=W)` — the most recent `W`
rows. A decimation update clamps to at least 1 and rebuilds
`_recent_raw_rows` as `deque(prev[-N+1:], maxlen=N)` when `N > 1`, else
`deque(prev, maxlen=1)` which retains the single most recent element. An
interval update also writes the tracker's `min_llm_interval` (line 880). -/
def updateRuntimeConfig {F : Type} (p : RuntimePayload) (s : AppState F) :
    AppState F :=
  let s := match p.pcaWindowSize with
    | some w => { s with windowSize := w, liveBuffer := takeLast w s.liveBuffer }
    | none => s
  let s := match p.faultTriggerConsecutiveStep with
    | some k => { s with consecutiveRequired := k }
    | none => s
  let s := match p.decimationNew with
    | some n0 =>
      let n := max 1 n0
      { s with
        decimationN := n
        recentRawRows :=
          if 1 < n then takeLast (n - 1) s.recentRawRows
          else takeLast n s.recentRawRows }
    | none => s
  let s := match p.llmMinIntervalSeconds with
    | some v =>
      { s with tracker := { s.tracker with minLlmInterval := max 0 v } }
    | none => s
  let s := match p.featureShiftJaccardThreshold with
    | some q => { s with jaccardThreshold := q }
    | none => s
  match p.featureShiftMinIntervalSeconds with
  | some v => { s with featureShiftMinInterval := v }
  | none => s

/-- An event on the single control path of the backend: an `/ingest` call, the
start of a created `background_llm_analysis` task, the completion of a running
one, or a `POST /config/runtime` call. -/
inductive AppEvent (F : Type) where
  | ingest (now : ℤ) (input : Option (F → ℚ))
  | taskStart (t : ℤ)
  | taskFinish (outcome : CycleOutcome)
  | config (p : RuntimePayload)

/-- Small-step semantics of one event. A created task that starts running
applies `cycleStart` (lines 679-680); a finishing task applies its `finally`
block (lines 789-796). -/
def appStep {F : Type} (cols : List F) (topk : ℕ)
    (detector : (F → ℚ) → ℚ × Bool) (thresh : ℚ) (s : AppState F) :
    AppEvent F → AppState F
  | .ingest now input => (ingestStep cols topk detector thresh now s input).1
  | .taskStart t =>
    if 0 < s.pendingTasks then
      { s with
        pendingTasks := s.pendingTasks - 1
        runningTasks := s.runningTasks + 1
        tracker := cycleStart t s.tracker }
    else s
  | .taskFinish _ =>
    if 0 < s.runningTasks then
      { s with
        runningTasks := s.runningTasks - 1
        tracker := cycleFinally s.tracker }
    else s
  | .config p => updateRuntimeConfig p s

/-- Run a sequence of events. -/
def runApp {F : Type} (cols : List F) (topk : ℕ)
    (detector : (F → ℚ) → ℚ × Bool) (thresh : ℚ) :
    AppState F → List (AppEvent F) → AppState F
  | s, [] => s
  | s, e :: es => runApp cols topk detector thresh (appStep cols topk detector thresh s e) es

/-- The module-initialisation state of app.py (lines 287-312): empty buffers
and counters, a tracker with `last_llm_request_time = 0` and
`is_analyzing = False`, and the configured knobs. -/
def initState (F : Type) (w n r : ℕ) (minInterval : ℤ) (jt : ℚ) (fsmi : ℤ) :
    AppState F :=
  { windowSize := w
    decimationN := n
    consecutiveRequired := r
    jaccardThreshold := jt
    featureShiftMinInterval := fsmi
    recentRawRows := []
    liveBuffer := []
    consecutiveAnomalies := 0
    aggregatedCount := 0
    tracker := { minLlmInterval := minInterval, lastLlmRequestTime := 0, isAnalyzing := false }
    pendingTasks := 0
    runningTasks := 0
    lastLlmTriggerTime := 0
    lastLlmTopFeatures := [] }

/-! ## app.py : the /stream event generator -/

/-- An event a `/stream` subscriber could receive. The generator of
`stream_live_points` (app.py lines 820-840) yields only data frames; the
`heartbeat` constructor exists so that the absence of idle heartbeats is
statable. -/
inductive StreamEvent (F : Type) where
  | data (row : AggRow F)
  | heartbeat

/-- Whether a stream event is a heartbeat. -/
def StreamEvent.isHeartbeat {F : Type} : StreamEvent F → Bool
  | .data _ => false
  | .heartbeat => true

/-- One pass of the polling loop body of `stream_live_points` (app.py lines
825-835), seeing the current last element of `live_buffer` (`none` while the
buffer is empty): a row is yielded exactly when its `time` field differs from
`last_time_seen`, which is then updated. -/
def streamTick {F : Type} (lastSeen : Option ℕ) (view : Option (AggRow F)) :
    Option ℕ × Option (StreamEvent F) :=
  match view with
  | none => (lastSeen, none)
  | some row =>
    if some row.time = lastSeen then (lastSeen, none)
    else (some row.time, some (.data row))

/-- Run the polling loop over a schedule of buffer views, starting from a
given `last_time_seen`, collecting the yielded events. -/
def streamEmitsFrom {F : Type} : Option ℕ → List (Option (AggRow F)) → List (StreamEvent F)
  | _, [] => []
  | lastSeen, v :: vs =>
    let out := streamTick lastSeen v
    out.2.toList ++ streamEmitsFrom out.1 vs

/-- The events a freshly connected subscriber receives over a schedule of
buffer views (`last_time_seen = None` initially, app.py line 822). -/
def streamEmits {F : Type} (ticks : List (Option (AggRow F))) : List (StreamEvent F) :=
  streamEmitsFrom none ticks

/-- Specification value for the stream: keep each observed row whose `time`
differs from the previously observed row's `time` (change-based
deduplication). -/
def destutterByTime {F : Type} : Option ℕ → List (AggRow F) → List (AggRow F)
  | _, [] => []
  | last, r :: rs =>
    if some r.time = last then destutterByTime last rs
    else r :: destutterByTime (some r.time) rs

/-! ## Specification values for the aggregator -/

/-- Specification value: the per-chunk mean rows a decimating aggregator of
size `N` should emit — one `meanRow` per full chunk of `N` consecutive raw
rows, in order; a trailing partial chunk emits nothing. -/
def chunkMeans {F : Type} (N : ℕ) (rows : List (F → ℚ)) : List (F → ℚ) :=
  if _h : 1 ≤ N ∧ N ≤ rows.length then
    meanRow (rows.take N) :: chunkMeans N (rows.drop N)
  else []
termination_by rows.length
decreasing_by
  simp only [List.length_drop]
  omega

/-- Feed a list of feature-complete raw rows one by one through
`ingest_live_point` at a fixed wall-clock time, collecting the final state,
the acknowledgments and the aggregated rows produced. -/
def ingestMany {F : Type} (cols : List F) (topk : ℕ)
    (detector : (F → ℚ) → ℚ × Bool) (thresh : ℚ) (now : ℤ) :
    AppState F → List (F → ℚ) →
    AppState F × List (IngestResponse F) × List (AggRow F)
  | s, [] => (s, [], [])
  | s, r :: rs =>
    let out := ingestStep cols topk detector thresh now s (some r)
    let rest := ingestMany cols topk detector thresh now out.1 rs
    (rest.1, out.2.1 :: rest.2.1, out.2.2.toList ++ rest.2.2)

/-! ## Concrete trigger trace

A four-feature instantiation of the live pipeline, used to evaluate the
trigger path on explicit inputs: decimation 1, window 10, one consecutive
anomaly required, `llm_min_interval_seconds = 30`,
`feature_shift_jaccard_threshold = 3/5`. -/

/-- The feature columns of the concrete instantiation. -/
def c1Cols : List (Fin 4) := [0, 1, 2, 3]

/-- A concrete detector oracle: `t2` is the value of feature 0 and the point
is anomalous when it exceeds 10. -/
def c1Detector : (Fin 4 → ℚ) → ℚ × Bool :=
  fun r => (r 0, decide (10 < r 0))

/-- A feature-complete anomalous raw row. -/
def c1Row : Fin 4 → ℚ :=
  fun j => if j = 0 then 100 else if j = 2 then 1 else if j = 3 then 2 else 0

/-- A later anomalous raw row whose top two contributing features against the
window mean are features 2 and 3. -/
def c1RowLater : Fin 4 → ℚ :=
  fun j => if j = 0 then 100 else if j = 2 then 31 else if j = 3 then 14 else 0

/-- The initial app state of the concrete instantiation. -/
def c1Init : AppState (Fin 4) := initState (Fin 4) 10 1 1 30 (3/5) 120

/-- State after four anomalous aggregated rows (times 1000-1003): enough
context is still missing at first, and no trigger has fired yet. -/
def c1State4 : AppState (Fin 4) :=
  runApp c1Cols 2 c1Detector 10 c1Init
    [.ingest 1000 (some c1Row), .ingest 1001 (some c1Row),
     .ingest 1002 (some c1Row), .ingest 1003 (some c1Row)]

/-- The fifth anomalous row (time 1004) makes the gate fire; afterwards the
created background task starts at time 1005 (setting
`last_llm_request_time = 1005`) and completes successfully. -/
def c1StateBefore : AppState (Fin 4) :=
  runApp c1Cols 2 c1Detector 10 c1State4
    [.ingest 1004 (some c1Row), .taskStart 1005, .taskFinish .success]

/-- The sixth aggregated row arrives at time 1010, only 5 s after the last
LLM request, with a materially different fault signature. -/
def c1Out : AppState (Fin 4) × IngestResponse (Fin 4) × Option (AggRow (Fin 4)) :=
  ingestStep c1Cols 2 c1Detector 10 1010 c1StateBefore (some c1RowLater)

/-- The default aggregated row (used only to read the last buffer element). -/
def defaultAggRow : AggRow (Fin 4) := ⟨fun _ => 0, 0, false, 0, 0⟩

/-! ## Helper lemmas -/

/-- The function `query_model` always returns the queried model name as the key. -/
theorem queryModel_fst (outcome : String → CallOutcome) (rt : String → ℚ)
    (m : String) : (queryModel outcome rt m).1 = m := by
  unfold queryModel
  split
  · split <;> rfl
  · rfl

/-- A bounded deque never holds more than its capacity. -/
theorem takeLast_length_le {α : Type} (n : ℕ) (xs : List α) :
    (takeLast n xs).length ≤ n := by
  simp only [takeLast, List.length_drop]
  omega

/-- The kept part of a bounded deque is the most recent `min n length`
elements. -/
theorem takeLast_length {α : Type} (n : ℕ) (xs : List α) :
    (takeLast n xs).length = min n xs.length := by
  simp only [takeLast, List.length_drop]
  omega

/-- Truncation keeps a suffix of the original list. -/
theorem takeLast_suffix {α : Type} (n : ℕ) (xs : List α) :
    takeLast n xs <:+ xs :=
  List.drop_suffix _ _

/-- Appending to a deque that is strictly below capacity is a plain append. -/
theorem boundedAppend_of_lt {α : Type} (n : ℕ) (xs : List α) (x : α)
    (h : xs.length < n) : boundedAppend n xs x = xs ++ [x] := by
  have h0 : (xs ++ [x]).length - n = 0 := by
    simp only [List.length_append, List.length_singleton]
    omega
  simp only [boundedAppend, takeLast, h0, List.drop_zero]

/-! ## C4 -/

/-- C4: every backend-call failure during a dispatch (timeout, transport
error, empty/invalid response — all surfacing as exceptions from the query
helpers) is captured as a per-backend structured result with status `error`
carrying the error text; `get_analysis_from_all_models` embeds as a total
function (no exception escapes to its caller), and the result bundle contains
exactly one settled entry per launched backend call — it is assembled only
after every call has settled. -/
theorem c4_failures_are_data (activeModels : List String)
    (outcome : String → CallOutcome) (rt : String → ℚ)
    (hne : activeModels ≠ []) :
    ∃ rs, getAnalysisFromAllModels activeModels outcome rt = .bundle rs activeModels
      ∧ rs.map Prod.fst = activeModels
      ∧ (∀ m e, m ∈ activeModels → m ∈ knownModels → outcome m = .exn e →
          (m, (⟨"Error: " ++ e, rt m, "error"⟩ : ModelResult)) ∈ rs) := by
  refine ⟨activeModels.map (queryModel outcome rt), ?_, ?_, ?_⟩
  · unfold getAnalysisFromAllModels
    simp [hne]
  · rw [List.map_map]
    have : (Prod.fst ∘ queryModel outcome rt) = fun m => m := by
      funext m
      exact queryModel_fst outcome rt m
    rw [this]
    exact List.map_id' activeModels
  · intro m e hm hk ho
    refine List.mem_map.mpr ⟨m, hm, ?_⟩
    simp [queryModel, hk, ho]

/-- Witness for C4 at a concrete dispatch with one failing backend. -/
theorem c4_failures_are_data_witness :
    ∃ rs, getAnalysisFromAllModels ["lmstudio"] (fun _ => .exn "connection refused")
        (fun _ => 1) = .bundle rs ["lmstudio"]
      ∧ rs.map Prod.fst = ["lmstudio"]
      ∧ ("lmstudio",
          (⟨"Error: " ++ "connection refused", 1, "error"⟩ : ModelResult)) ∈ rs := by
  obtain ⟨rs, h1, h2, h3⟩ := c4_failures_are_data ["lmstudio"]
    (fun _ => .exn "connection refused") (fun _ => 1) (by decide)
  exact ⟨rs, h1, h2, h3 "lmstudio" "connection refused" (by decide) (by decide) rfl⟩

/-! ## C7 -/

/-- C7: with the source's `max_retries = 1`, each LMStudio call within a
dispatch cycle makes exactly one attempt whatever the outcome — so at most
one retry follows a transient transport failure (in fact zero), no retry
follows a timeout (a timed-out call is terminal immediately, yielding the
timeout error), and the Claude call likewise makes exactly one attempt. -/
theorem c7_retry_budget (outcomes : ℕ → AttemptOutcome) (oc : AttemptOutcome) :
    (queryLmstudio outcomes).2 - 1 ≤ 1
    ∧ (outcomes 0 = .timeoutErr →
        (queryLmstudio outcomes).2 - 1 = 0
        ∧ (queryLmstudio outcomes).1 =
            .error "LMStudio timeout (45s each - check if model is loaded)")
    ∧ (∀ e, outcomes 0 = .otherErr e →
        (queryLmstudio outcomes).2 - 1 = 0
        ∧ (queryLmstudio outcomes).1 = .error ("LMStudio failed: " ++ e))
    ∧ (queryClaude oc).2 - 1 = 0 := by
  have hrun : ∀ o, outcomes 0 = o →
      queryLmstudio outcomes =
        (match o with
         | .ok text => (.ok text, 1)
         | .timeoutErr =>
            (.error "LMStudio timeout (45s each - check if model is loaded)", 1)
         | .otherErr e => (.error ("LMStudio failed: " ++ e), 1)) := by
    intro o ho
    unfold queryLmstudio lmstudioMaxRetries lmstudioGo
    rw [ho]
    cases o <;> simp
  refine ⟨?_, ?_, ?_, ?_⟩
  · rw [hrun (outcomes 0) rfl]
    cases outcomes 0 <;> simp
  · intro ht
    rw [hrun _ ht]
    exact ⟨rfl, rfl⟩
  · intro e he
    rw [hrun _ he]
    exact ⟨rfl, rfl⟩
  · cases oc <;> rfl

/-- Witness for C7: a timed-out first attempt is terminal with no retry, and
a Claude transport failure makes exactly one attempt. -/
theorem c7_retry_budget_witness :
    ((queryLmstudio fun _ => .timeoutErr).2 - 1 = 0
      ∧ (queryLmstudio fun _ => .timeoutErr).1 =
          .error "LMStudio timeout (45s each - check if model is loaded)")
    ∧ ((queryClaude (.otherErr "connection reset")).2 - 1 = 0) :=
  ⟨(c7_retry_budget (fun _ => .timeoutErr) (.otherErr "connection reset")).2.1 rfl,
   (c7_retry_budget (fun _ => .timeoutErr) (.otherErr "connection reset")).2.2.2⟩

/-! ## C8 -/

/-- C8 evaluated at the failing input: after a successful analysis the
backend state is Displaying; the operator freezes it (Frozen); but when the
display timer fires it returns the state to Idle even though it was frozen
and never explicitly unfrozen — `_display_timer` clears `is_displaying`
unconditionally, contradicting the frozen-display purpose of
`freeze_display` and `unfreeze_display`. -/
theorem c8_timer_clears_frozen_display :
    (analyzeFault 7 5 100 (.ok "analysis text")
        ⟨false, .off, 0, none, none⟩).1.isDisplaying = Displaying.showing
    ∧ (freezeDisplay (analyzeFault 7 5 100 (.ok "analysis text")
        ⟨false, .off, 0, none, none⟩).1).isDisplaying = Displaying.frozen
    ∧ (displayTimerFire 107 (freezeDisplay (analyzeFault 7 5 100 (.ok "analysis text")
        ⟨false, .off, 0, none, none⟩).1)).isDisplaying = Displaying.off :=
  ⟨rfl, rfl, rfl⟩

/-! ## C10 -/

/-- C10: if a single-backend manual analysis fails with any exception,
`analyze_fault` returns a structured record with status `error` instead of
raising, the display timer is never started (the Displaying phase is skipped
entirely), `is_displaying` is untouched, and the manager is immediately back
in Idle: `can_accept_request()` returns true right after the error result is
returned. -/
theorem c10_error_path_returns_to_idle (displayDuration : ℤ) (dur : ℚ)
    (now : ℤ) (e : String) (m : ManagerState)
    (h : canAcceptRequest m = true) :
    (analyzeFault displayDuration dur now (.error e) m).2.1
        = .record ⟨"Error: " ++ e, 0, "error"⟩
    ∧ (analyzeFault displayDuration dur now (.error e) m).2.2 = false
    ∧ (analyzeFault displayDuration dur now (.error e) m).1.isDisplaying
        = m.isDisplaying
    ∧ canAcceptRequest (analyzeFault displayDuration dur now (.error e) m).1
        = true := by
  have hd : m.isDisplaying.truthy = false := by
    simp only [canAcceptRequest, Bool.not_eq_true', Bool.or_eq_false_iff] at h
    exact h.2
  unfold analyzeFault
  rw [h]
  simp [canAcceptRequest, hd]

/-- Witness for C10 at a concrete idle manager and a concrete exception. -/
theorem c10_error_path_returns_to_idle_witness :
    (analyzeFault 7 0 200 (.error "Gemini timeout after 60 seconds")
        ⟨false, .off, 0, none, none⟩).2.1
        = .record ⟨"Error: " ++ "Gemini timeout after 60 seconds", 0, "error"⟩
    ∧ (analyzeFault 7 0 200 (.error "Gemini timeout after 60 seconds")
        ⟨false, .off, 0, none, none⟩).2.2 = false
    ∧ (analyzeFault 7 0 200 (.error "Gemini timeout after 60 seconds")
        ⟨false, .off, 0, none, none⟩).1.isDisplaying
        = (⟨false, .off, 0, none, none⟩ : ManagerState).isDisplaying
    ∧ canAcceptRequest (analyzeFault 7 0 200 (.error "Gemini timeout after 60 seconds")
        ⟨false, .off, 0, none, none⟩).1 = true :=
  c10_error_path_returns_to_idle 7 0 200 "Gemini timeout after 60 seconds"
    ⟨false, .off, 0, none, none⟩ rfl

/-- Case analysis of the gate inside `ingest_live_point`: either the call
leaves the dispatch bookkeeping untouched, reports no server error and never
reports a trigger — or the trigger branch ran, which requires the in-flight
flag to be false and the interval check to pass, creates exactly one
background task and ends in the 500 error response. -/
theorem ingestStep_cases {F : Type} (cols : List F) (topk : ℕ)
    (detector : (F → ℚ) → ℚ × Bool) (thresh : ℚ) (now : ℤ)
    (s : AppState F) (input : Option (F → ℚ)) :
    ((ingestStep cols topk detector thresh now s input).1.pendingTasks
        = s.pendingTasks
      ∧ (∀ d, (ingestStep cols topk detector thresh now s input).2.1
          ≠ .serverError d)
      ∧ (∀ t2 a th c i tf, (ingestStep cols topk detector thresh now s input).2.1
          ≠ .result t2 a th c i (.triggered tf)))
    ∨ (s.tracker.isAnalyzing = false
        ∧ canSendLlmRequest now s.tracker = true
        ∧ (ingestStep cols topk detector thresh now s input).1.pendingTasks
            = s.pendingTasks + 1
        ∧ (ingestStep cols topk detector thresh now s input).2.1
            = .serverError "NameError: name now is not defined") := by
  unfold ingestStep
  cases input with
  | none => exact Or.inl ⟨rfl, fun d => by simp, fun t2 a th c i tf => by simp⟩
  | some raw =>
    dsimp only
    repeat' split
    all_goals
      first
      | exact Or.inl ⟨rfl, fun d => by simp, fun t2 a th c i tf => by simp⟩
      | (rename_i hana hsend
         exact Or.inr ⟨by simpa using hana, hsend, rfl, rfl⟩)

/-! ## C2 -/

/-- C2: the in-flight flag `anomaly_state_tracker.is_analyzing` is set when a
background analysis task starts and is cleared unconditionally by the
`finally` block on every completion path — success, partial failure, total
failure of all backends, overall timeout, or any exception escaping the body
— so it is false after every dispatch cycle; and a new dispatch is only ever
created while the flag is false, so it is also false before every cycle. -/
theorem c2_inflight_cleared :
    (∀ (t : ℤ) (outcome : CycleOutcome) (tr : TrackerState),
        (backgroundLlmAnalysis t outcome tr).1.isAnalyzing = false)
    ∧ (∀ (t : ℤ) (tr : TrackerState), (cycleStart t tr).isAnalyzing = true)
    ∧ (∀ (F : Type) (cols : List F) (topk : ℕ)
        (detector : (F → ℚ) → ℚ × Bool) (thresh : ℚ) (now : ℤ)
        (s : AppState F) (input : Option (F → ℚ)),
        (ingestStep cols topk detector thresh now s input).1.pendingTasks
            ≠ s.pendingTasks →
        s.tracker.isAnalyzing = false) := by
  refine ⟨fun t outcome tr => rfl, fun t tr => rfl, ?_⟩
  intro F cols topk detector thresh now s input hne
  rcases ingestStep_cases cols topk detector thresh now s input with h | h
  · exact absurd h.1 hne
  · exact h.1

/-- Witness for C2: the fifth anomalous row of the concrete trace creates a
dispatch, and indeed the flag was false before it. -/
theorem c2_inflight_cleared_witness : c1State4.tracker.isAnalyzing = false :=
  c2_inflight_cleared.2.2 (Fin 4) c1Cols 2 c1Detector 10 1004 c1State4
    (some c1Row) (by with_unfolding_all decide)

/-! ## C1 -/

/-- C1 counterexample: in the concrete trace a trigger has fired on the fifth
anomalous row (a background task was created, started and completed, leaving
`last_llm_request_time = 1005`), and the next aggregated row (time 1010) is
anomalous, reaches the required consecutive count, has enough window context,
is not in flight, arrives within the 30 s minimum inter-trigger interval, and
carries the top-contributing feature set `[2, 3]` whose Jaccard similarity is
0 — below the configured threshold 3/5 — both to the stored last-triggered
feature set and to the set the earlier trigger computed. Yet no second
trigger fires: the gate answers `rate_limited` and no background task is
created. -/
theorem c1_counterexample :
    (ingestStep c1Cols 2 c1Detector 10 1004 c1State4 (some c1Row)).1.pendingTasks = 1
    ∧ c1StateBefore.tracker.isAnalyzing = false
    ∧ c1StateBefore.liveBuffer.length = 5
    ∧ (1010 : ℤ) - c1StateBefore.tracker.lastLlmRequestTime
        < c1StateBefore.tracker.minLlmInterval
    ∧ topContributingFeatures c1Cols 2 c1Out.1.liveBuffer
        (c1Out.1.liveBuffer.getLastD defaultAggRow) = [2, 3]
    ∧ jaccardSim [(2 : Fin 4), 3] c1StateBefore.lastLlmTopFeatures
        < c1StateBefore.jaccardThreshold
    ∧ jaccardSim [(2 : Fin 4), 3] [0, 1] < c1StateBefore.jaccardThreshold
    ∧ c1Out.2.1 = .result 100 true 10 1 6 .rateLimited
    ∧ c1Out.1.pendingTasks = c1StateBefore.pendingTasks := by
  with_unfolding_all decide

/-- C1 amended: the fingerprint-divergence override does not exist in the
code. Within the minimum inter-trigger interval no new dispatch is ever
created and the ingest acknowledgment never reports a trigger, regardless of
the top-contributing feature sets or the configured Jaccard threshold: the
`AnomalyStateTracker` interval check is the only rate limiter on the live
trigger path. -/
theorem c1_amended {F : Type} (cols : List F) (topk : ℕ)
    (detector : (F → ℚ) → ℚ × Bool) (thresh : ℚ) (now : ℤ)
    (s : AppState F) (input : Option (F → ℚ))
    (h : now - s.tracker.lastLlmRequestTime < s.tracker.minLlmInterval) :
    (ingestStep cols topk detector thresh now s input).1.pendingTasks
        = s.pendingTasks
    ∧ (∀ d, (ingestStep cols topk detector thresh now s input).2.1
        ≠ .serverError d)
    ∧ (∀ t2 a th c i tf, (ingestStep cols topk detector thresh now s input).2.1
        ≠ .result t2 a th c i (.triggered tf)) := by
  have hsend : canSendLlmRequest now s.tracker = false := by
    simp only [canSendLlmRequest, decide_eq_false_iff_not, not_le]
    omega
  rcases ingestStep_cases cols topk detector thresh now s input with hc | hc
  · exact hc
  · rw [hsend] at hc
    exact absurd hc.2.1 (by simp)

/-- Witness for C1-amended at the concrete within-interval row. -/
theorem c1_amended_witness :
    (ingestStep c1Cols 2 c1Detector 10 1010 c1StateBefore (some c1RowLater)).1.pendingTasks
        = c1StateBefore.pendingTasks
    ∧ (ingestStep c1Cols 2 c1Detector 10 1010 c1StateBefore
        (some c1RowLater)).2.1 ≠ .serverError "NameError: name now is not defined"
    ∧ (ingestStep c1Cols 2 c1Detector 10 1010 c1StateBefore
        (some c1RowLater)).2.1 ≠ .result 100 true 10 1 6 (.triggered [2, 3]) := by
  have h := c1_amended c1Cols 2 c1Detector 10 1010 c1StateBefore (some c1RowLater)
    (by with_unfolding_all decide)
  exact ⟨h.1, h.2.1 "NameError: name now is not defined", h.2.2 100 true 10 1 6 [2, 3]⟩

/-! ## C3 -/

/-- C3 evaluated at the failing input: on the trigger path the ingest handler
does not return the synchronous acknowledgment. At the fifth anomalous row of
the concrete trace the gate decides to trigger — the background task is
created and the consecutive counter is reset — yet the call returns the 500
error response produced from the `NameError` at app.py line 803 by the
`except Exception` handler, instead of the acknowledgment dict: the error
branch is reached on every trigger, not unreachable. -/
theorem c3_trigger_path_hits_error_branch :
    (ingestStep c1Cols 2 c1Detector 10 1004 c1State4 (some c1Row)).2.1
        = .serverError "NameError: name now is not defined"
    ∧ (ingestStep c1Cols 2 c1Detector 10 1004 c1State4 (some c1Row)).1.pendingTasks = 1
    ∧ (ingestStep c1Cols 2 c1Detector 10 1004 c1State4
        (some c1Row)).1.consecutiveAnomalies = 0
    ∧ (ingestStep c1Cols 2 c1Detector 10 1004 c1State4
        (some c1Row)).1.lastLlmTriggerTime = c1State4.lastLlmTriggerTime
    ∧ (ingestStep c1Cols 2 c1Detector 10 1004 c1State4
        (some c1Row)).1.lastLlmTopFeatures = c1State4.lastLlmTopFeatures := by
  with_unfolding_all decide

/-! ## C6 -/

/-- The live buffer and the window size after a runtime reconfiguration are
determined by the `pca_window_size` key alone; the other keys leave both
untouched. -/
theorem updateRuntimeConfig_buffer {F : Type} (p : RuntimePayload) (s : AppState F) :
    (updateRuntimeConfig p s).liveBuffer
        = (match p.pcaWindowSize with
           | some w => takeLast w s.liveBuffer
           | none => s.liveBuffer)
    ∧ (updateRuntimeConfig p s).windowSize
        = (match p.pcaWindowSize with
           | some w => w
           | none => s.windowSize) := by
  unfold updateRuntimeConfig
  cases p.pcaWindowSize <;>
    cases p.faultTriggerConsecutiveStep <;>
      cases p.decimationNew <;>
        cases p.llmMinIntervalSeconds <;>
          cases p.featureShiftJaccardThreshold <;>
            cases p.featureShiftMinIntervalSeconds <;>
              exact ⟨rfl, rfl⟩

/-- One ingest call never changes the window size, and either leaves the live
buffer unchanged or appends one aggregated row to it as a bounded deque. -/
theorem ingestStep_buffer {F : Type} (cols : List F) (topk : ℕ)
    (detector : (F → ℚ) → ℚ × Bool) (thresh : ℚ) (now : ℤ)
    (s : AppState F) (input : Option (F → ℚ)) :
    (ingestStep cols topk detector thresh now s input).1.windowSize = s.windowSize
    ∧ ((ingestStep cols topk detector thresh now s input).1.liveBuffer = s.liveBuffer
       ∨ ∃ r, (ingestStep cols topk detector thresh now s input).1.liveBuffer
            = boundedAppend s.windowSize s.liveBuffer r) := by
  unfold ingestStep
  cases input with
  | none => exact ⟨rfl, Or.inl rfl⟩
  | some raw =>
    dsimp only
    repeat' split
    all_goals
      first
      | exact ⟨rfl, Or.inl rfl⟩
      | exact ⟨rfl, Or.inr ⟨_, rfl⟩⟩

/-- The window-size invariant is preserved by every event. -/
theorem appStep_window_bound {F : Type} (cols : List F) (topk : ℕ)
    (detector : (F → ℚ) → ℚ × Bool) (thresh : ℚ)
    (s : AppState F) (e : AppEvent F)
    (h : s.liveBuffer.length ≤ s.windowSize) :
    (appStep cols topk detector thresh s e).liveBuffer.length
      ≤ (appStep cols topk detector thresh s e).windowSize := by
  cases e with
  | ingest now input =>
    obtain ⟨hw, hb⟩ := ingestStep_buffer cols topk detector thresh now s input
    show (ingestStep cols topk detector thresh now s input).1.liveBuffer.length
      ≤ (ingestStep cols topk detector thresh now s input).1.windowSize
    rw [hw]
    rcases hb with hb | ⟨r, hb⟩
    · rw [hb]; exact h
    · rw [hb]; exact takeLast_length_le _ _
  | taskStart t =>
    dsimp only [appStep]
    split <;> exact h
  | taskFinish o =>
    dsimp only [appStep]
    split <;> exact h
  | config p =>
    obtain ⟨hb, hw⟩ := updateRuntimeConfig_buffer p s
    show (updateRuntimeConfig p s).liveBuffer.length ≤ (updateRuntimeConfig p s).windowSize
    rw [hb, hw]
    cases p.pcaWindowSize with
    | none => exact h
    | some w => exact takeLast_length_le _ _

/-- The window-size invariant holds along every event trace. -/
theorem runApp_window_bound {F : Type} (cols : List F) (topk : ℕ)
    (detector : (F → ℚ) → ℚ × Bool) (thresh : ℚ) :
    ∀ (events : List (AppEvent F)) (s : AppState F),
      s.liveBuffer.length ≤ s.windowSize →
      (runApp cols topk detector thresh s events).liveBuffer.length
        ≤ (runApp cols topk detector thresh s events).windowSize := by
  intro events
  induction events with
  | nil => intro s h; exact h
  | cons e es ih =>
    intro s h
    exact ih _ (appStep_window_bound cols topk detector thresh s e h)

/-- C6: the sliding window of aggregated rows never holds more than `W`
entries — after every event trace (ingest calls, background-task starts and
completions, runtime reconfigurations) the buffer length is at most the
current `pca_window_size` — and immediately after a reconfiguration that sets
the window size to `W` the buffer is truncated to the most recent
`min W length` rows (a suffix of the old buffer), so the bound holds across a
shrink as well. -/
theorem c6_window_bound {F : Type} (cols : List F) (topk : ℕ)
    (detector : (F → ℚ) → ℚ × Bool) (thresh : ℚ)
    (w n r : ℕ) (mi : ℤ) (jt : ℚ) (fsmi : ℤ)
    (events : List (AppEvent F)) :
    ((runApp cols topk detector thresh (initState F w n r mi jt fsmi)
        events).liveBuffer.length
      ≤ (runApp cols topk detector thresh (initState F w n r mi jt fsmi)
        events).windowSize)
    ∧ (∀ (p : RuntimePayload) (s : AppState F) (w2 : ℕ),
        p.pcaWindowSize = some w2 →
        (updateRuntimeConfig p s).windowSize = w2
        ∧ (updateRuntimeConfig p s).liveBuffer.length = min w2 s.liveBuffer.length
        ∧ (updateRuntimeConfig p s).liveBuffer <:+ s.liveBuffer) := by
  constructor
  · exact runApp_window_bound cols topk detector thresh events _ (by simp [initState])
  · intro p s w2 hp
    obtain ⟨hb, hw⟩ := updateRuntimeConfig_buffer p s
    rw [hp] at hb hw
    refine ⟨hw, ?_, ?_⟩
    · rw [hb]; exact takeLast_length _ _
    · rw [hb]; exact takeLast_suffix _ _

/-- The `/config/runtime` payload shrinking the window to 2. -/
def c6Payload : RuntimePayload := ⟨some 2, none, none, none, none, none⟩

/-- Witness for C6: shrinking the concrete five-row buffer to window 2. -/
theorem c6_window_bound_witness :
    (updateRuntimeConfig c6Payload c1StateBefore).windowSize = 2
    ∧ (updateRuntimeConfig c6Payload c1StateBefore).liveBuffer.length
        = min 2 c1StateBefore.liveBuffer.length
    ∧ (updateRuntimeConfig c6Payload c1StateBefore).liveBuffer
        <:+ c1StateBefore.liveBuffer :=
  (c6_window_bound c1Cols 2 c1Detector 10 10 1 1 30 (3/5) 120 []).2
    c6Payload c1StateBefore 2 rfl

/-! ## C5 -/

/-- Mapping a function over the list view of an option commutes. -/
theorem optionToList_map {α β : Type} (f : α → β) (o : Option α) :
    (o.toList).map f = (o.map f).toList := by
  cases o <;> rfl

/-- The specification chunk list has one entry per full chunk. -/
theorem chunkMeans_length {F : Type} (N : ℕ) (hN : 1 ≤ N) :
    ∀ (B : ℕ) (rows : List (F → ℚ)), rows.length ≤ B →
      (chunkMeans N rows).length = rows.length / N := by
  intro B
  induction B with
  | zero =>
    intro rows hB
    have h0 : rows.length = 0 := Nat.le_zero.mp hB
    rw [chunkMeans, dif_neg (by omega)]
    simp [h0]
  | succ B ih =>
    intro rows hB
    by_cases h : N ≤ rows.length
    · rw [chunkMeans, dif_pos ⟨hN, h⟩]
      have hd : (rows.drop N).length = rows.length - N := List.length_drop N rows
      have := ih (rows.drop N) (by omega)
      simp only [List.length_cons, this, hd]
      rw [Nat.div_eq_sub_div (by omega) h]
    · have hlt : rows.length < N := by omega
      rw [chunkMeans, dif_neg (by omega)]
      simp only [List.length_nil]
      exact (Nat.div_eq_of_lt hlt).symm

/-- Any ingest call that emits an aggregated row leaves the accumulator
empty: the aggregator is cleared after each emission. -/
theorem ingestStep_clears_accumulator {F : Type} (cols : List F) (topk : ℕ)
    (detector : (F → ℚ) → ℚ × Bool) (thresh : ℚ) (now : ℤ)
    (s : AppState F) (input : Option (F → ℚ)) (row : AggRow F)
    (h : (ingestStep cols topk detector thresh now s input).2.2 = some row) :
    (ingestStep cols topk detector thresh now s input).1.recentRawRows = [] := by
  have halt : (ingestStep cols topk detector thresh now s input).2.2 = none
      ∨ (ingestStep cols topk detector thresh now s input).1.recentRawRows = [] := by
    unfold ingestStep
    cases input with
    | none => exact Or.inl rfl
    | some raw =>
      dsimp only
      repeat' split
      all_goals first | exact Or.inl rfl | exact Or.inr rfl
  rcases halt with hc | hc
  · rw [h] at hc
    exact absurd hc (by simp)
  · exact hc

/-- An ingest call on a feature-complete row while the accumulator stays
below the decimation size: the row is appended and nothing is emitted. -/
theorem ingestStep_accumulating {F : Type} (cols : List F) (topk : ℕ)
    (detector : (F → ℚ) → ℚ × Bool) (thresh : ℚ) (now : ℤ)
    (s : AppState F) (raw : F → ℚ)
    (hinv : s.recentRawRows.length < s.decimationN)
    (hlt : s.recentRawRows.length + 1 < s.decimationN) :
    ingestStep cols topk detector thresh now s (some raw)
      = ({ s with recentRawRows := s.recentRawRows ++ [raw] },
         .aggregating (s.recentRawRows.length + 1) s.decimationN, none) := by
  have hb : boundedAppend s.decimationN s.recentRawRows raw = s.recentRawRows ++ [raw] :=
    boundedAppend_of_lt _ _ _ hinv
  unfold ingestStep
  dsimp only
  rw [hb]
  rw [if_pos (by simp only [List.length_append, List.length_singleton]; omega)]
  simp [List.length_append]

/-- An ingest call on a feature-complete row that completes a chunk: the
accumulator is cleared, the decimation size is unchanged, and the emitted
aggregated row carries the per-feature arithmetic mean over the `N`
constituent raw rows. -/
theorem ingestStep_emits {F : Type} (cols : List F) (topk : ℕ)
    (detector : (F → ℚ) → ℚ × Bool) (thresh : ℚ) (now : ℤ)
    (s : AppState F) (raw : F → ℚ)
    (hinv : s.recentRawRows.length < s.decimationN)
    (hfull : s.recentRawRows.length + 1 = s.decimationN) :
    (ingestStep cols topk detector thresh now s (some raw)).1.recentRawRows = []
    ∧ (ingestStep cols topk detector thresh now s (some raw)).1.decimationN
        = s.decimationN
    ∧ ((ingestStep cols topk detector thresh now s (some raw)).2.2).map AggRow.vals
        = some (meanRow (s.recentRawRows ++ [raw])) := by
  have hb : boundedAppend s.decimationN s.recentRawRows raw = s.recentRawRows ++ [raw] :=
    boundedAppend_of_lt _ _ _ hinv
  unfold ingestStep
  dsimp only
  rw [hb]
  rw [if_neg (by simp only [List.length_append, List.length_singleton]; omega)]
  repeat' split
  all_goals exact ⟨rfl, rfl, rfl⟩

/-- Fold characterisation of the aggregator along a run of feature-complete
rows: starting from any state whose accumulator holds a partial chunk, the
emitted feature vectors are exactly the chunk means of the accumulated plus
incoming rows, and the final accumulator holds exactly the trailing partial
chunk. -/
theorem ingestMany_chunks {F : Type} (cols : List F) (topk : ℕ)
    (detector : (F → ℚ) → ℚ × Bool) (thresh : ℚ) (now : ℤ) (N : ℕ)
    (hN : 1 ≤ N) :
    ∀ (rows : List (F → ℚ)) (s : AppState F),
      s.decimationN = N → s.recentRawRows.length < N →
      ((ingestMany cols topk detector thresh now s rows).2.2.map AggRow.vals
          = chunkMeans N (s.recentRawRows ++ rows))
      ∧ ((ingestMany cols topk detector thresh now s rows).1.recentRawRows
          = (s.recentRawRows ++ rows).drop
              ((s.recentRawRows ++ rows).length
                - (s.recentRawRows ++ rows).length % N)) := by
  intro rows
  induction rows with
  | nil =>
    intro s hsN hinv
    rw [List.append_nil]
    constructor
    · rw [ingestMany]
      rw [chunkMeans, dif_neg (by omega)]
      rfl
    · rw [ingestMany]
      rw [Nat.mod_eq_of_lt hinv]
      simp
  | cons r rs ih =>
    intro s hsN hinv
    have hacc : s.recentRawRows ++ r :: rs = (s.recentRawRows ++ [r]) ++ rs := by
      simp
    by_cases hlt : s.recentRawRows.length + 1 < N
    · have hstep := ingestStep_accumulating cols topk detector thresh now s r
        (by omega) (by omega)
      rw [ingestMany, hstep]
      dsimp only
      have hrec := ih { s with recentRawRows := s.recentRawRows ++ [r] }
        hsN (by simp only [List.length_append, List.length_singleton]; omega)
      simp only [List.nil_append] at hrec
      rw [hacc]
      simp only [List.append_assoc] at hrec ⊢
      exact hrec
    · have hfull : s.recentRawRows.length + 1 = N := by omega
      obtain ⟨hclear, hdec, hemit⟩ :=
        ingestStep_emits cols topk detector thresh now s r (by omega) (by omega)
      rw [ingestMany]
      dsimp only
      have hrec := ih (ingestStep cols topk detector thresh now s (some r)).1
        (by rw [hdec, hsN]) (by rw [hclear]; simpa using hN)
      rw [hclear] at hrec
      simp only [List.nil_append] at hrec ⊢
      have hlenacc : (s.recentRawRows ++ [r]).length = N := by
        simp only [List.length_append, List.length_singleton]
        omega
      constructor
      · rw [List.map_append, optionToList_map, hemit]
        rw [hrec.1]
        rw [hacc]
        have hlen2 : N ≤ ((s.recentRawRows ++ [r]) ++ rs).length := by
          rw [List.length_append, hlenacc]
          omega
        conv_rhs => rw [chunkMeans]
        rw [dif_pos ⟨hN, hlen2⟩]
        have htake : ((s.recentRawRows ++ [r]) ++ rs).take N = s.recentRawRows ++ [r] := by
          rw [← hlenacc]
          exact List.take_left _ _
        have hdrop : ((s.recentRawRows ++ [r]) ++ rs).drop N = rs := by
          rw [← hlenacc]
          exact List.drop_left _ _
        rw [htake, hdrop]
        rfl
      · rw [hrec.2, hacc]
        have hT : ((s.recentRawRows ++ [r]) ++ rs).length = N + rs.length := by
          simp only [List.length_append, List.length_singleton]
          omega
        rw [hT]
        have hmod : (N + rs.length) % N = rs.length % N := Nat.add_mod_left N rs.length
        rw [hmod]
        have harith : N + rs.length - rs.length % N
            = (s.recentRawRows ++ [r]).length + (rs.length - rs.length % N) := by
          have := Nat.mod_le rs.length N
          rw [hlenacc]
          omega
        rw [harith, List.drop_append]

/-- C5: for any sequence of feature-complete raw rows ingested with
decimation size `N ≥ 1`, exactly `total / N` (floor) aggregated rows are
emitted; the emitted feature vectors are precisely the per-feature arithmetic
means of the successive blocks of `N` constituent raw rows; the accumulator
finally holds exactly the trailing partial chunk; and any ingest call that
emits leaves the accumulator empty. -/
theorem c5_decimation {F : Type} (cols : List F) (topk : ℕ)
    (detector : (F → ℚ) → ℚ × Bool) (thresh : ℚ) (now : ℤ)
    (w r N : ℕ) (mi : ℤ) (jt : ℚ) (fsmi : ℤ) (hN : 1 ≤ N)
    (rows : List (F → ℚ)) :
    ((ingestMany cols topk detector thresh now (initState F w N r mi jt fsmi)
        rows).2.2.map AggRow.vals = chunkMeans N rows)
    ∧ ((ingestMany cols topk detector thresh now (initState F w N r mi jt fsmi)
        rows).2.2.length = rows.length / N)
    ∧ ((ingestMany cols topk detector thresh now (initState F w N r mi jt fsmi)
        rows).1.recentRawRows = rows.drop (N * (rows.length / N)))
    ∧ (∀ (s : AppState F) (raw : F → ℚ) (row : AggRow F),
        (ingestStep cols topk detector thresh now s (some raw)).2.2 = some row →
        (ingestStep cols topk detector thresh now s (some raw)).1.recentRawRows
          = []) := by
  have hmain := ingestMany_chunks cols topk detector thresh now N hN rows
    (initState F w N r mi jt fsmi) rfl (by exact hN)
  have h0 : (initState F w N r mi jt fsmi).recentRawRows = [] := rfl
  simp only [h0, List.nil_append] at hmain
  refine ⟨hmain.1, ?_, ?_, ?_⟩
  · have := congrArg List.length hmain.1
    simp only [List.length_map] at this
    rw [this]
    exact chunkMeans_length N hN rows.length rows le_rfl
  · rw [hmain.2]
    have hdm : N * (rows.length / N) = rows.length - rows.length % N := by
      have := Nat.mod_add_div rows.length N
      omega
    rw [hdm]
  · intro s raw row h
    exact ingestStep_clears_accumulator cols topk detector thresh now s
      (some raw) row h

/-- Witness for C5: five concrete rows with decimation 2 yield two aggregated
means and a one-row trailing accumulator, and a concrete emitting call leaves
the accumulator empty. -/
theorem c5_decimation_witness :
    ((ingestMany c1Cols 2 c1Detector 10 1000
        (initState (Fin 4) 10 2 1 30 (3/5) 120)
        [c1Row, c1Row, c1Row, c1Row, c1Row]).2.2.map AggRow.vals
      = chunkMeans 2 [c1Row, c1Row, c1Row, c1Row, c1Row])
    ∧ ((ingestMany c1Cols 2 c1Detector 10 1000
        (initState (Fin 4) 10 2 1 30 (3/5) 120)
        [c1Row, c1Row, c1Row, c1Row, c1Row]).2.2.length
      = [c1Row, c1Row, c1Row, c1Row, c1Row].length / 2)
    ∧ ((ingestMany c1Cols 2 c1Detector 10 1000
        (initState (Fin 4) 10 2 1 30 (3/5) 120)
        [c1Row, c1Row, c1Row, c1Row, c1Row]).1.recentRawRows
      = [c1Row, c1Row, c1Row, c1Row, c1Row].drop
          (2 * ([c1Row, c1Row, c1Row, c1Row, c1Row].length / 2)))
    ∧ ((ingestStep c1Cols 2 c1Detector 10 1000
        (initState (Fin 4) 10 1 1 30 (3/5) 120) (some c1Row)).1.recentRawRows
      = []) := by
  have h := c5_decimation c1Cols 2 c1Detector 10 1000 10 1 2 30 (3/5) 120
    (by decide) [c1Row, c1Row, c1Row, c1Row, c1Row]
  have h1 := c5_decimation c1Cols 2 c1Detector 10 1000 10 1 1 30 (3/5) 120
    (by decide) [c1Row]
  refine ⟨h.1, h.2.1, h.2.2.1, ?_⟩
  exact h1.2.2.2 (initState (Fin 4) 10 1 1 30 (3/5) 120) c1Row
    ⟨meanRow (boundedAppend 1 [] c1Row),
     (c1Detector (meanRow (boundedAppend 1 [] c1Row))).1,
     (c1Detector (meanRow (boundedAppend 1 [] c1Row))).2, 1, 10⟩
    (by with_unfolding_all rfl)

/-! ## C9 -/

/-- The polling loop is change-based deduplication: starting from any
`last_time_seen`, the emitted events are exactly the observed rows whose
`time` differs from the previous observed row's, wrapped as data frames. -/
theorem streamEmitsFrom_destutter {F : Type} :
    ∀ (ticks : List (Option (AggRow F))) (last : Option ℕ),
      streamEmitsFrom last ticks
        = (destutterByTime last (ticks.filterMap id)).map .data := by
  intro ticks
  induction ticks with
  | nil => intro last; rfl
  | cons v vs ih =>
    intro last
    cases v with
    | none => simp [streamEmitsFrom, streamTick, List.filterMap_cons, ih]
    | some row =>
      by_cases h : some row.time = last
      · simp [streamEmitsFrom, streamTick, List.filterMap_cons, destutterByTime, h, ih]
      · simp [streamEmitsFrom, streamTick, List.filterMap_cons, destutterByTime, h, ih]

/-- With pairwise-different consecutive times and a non-matching start, the
deduplication keeps every observed row. -/
theorem destutterByTime_of_chain {F : Type} :
    ∀ (rows : List (AggRow F)) (last : Option ℕ),
      rows.Chain' (fun a b => a.time ≠ b.time) →
      (∀ r1, rows.head? = some r1 → some r1.time ≠ last) →
      destutterByTime last rows = rows := by
  intro rows
  induction rows with
  | nil => intro last _ _; rfl
  | cons r rs ih =>
    intro last hchain hhead
    obtain ⟨hhd, htl⟩ := List.chain'_cons'.mp hchain
    rw [destutterByTime, if_neg (hhead r rfl)]
    congr 1
    apply ih _ htl
    intro r1 h1 hcontra
    have hne := hhd r1 (by rw [h1]; rfl)
    injection hcontra with hc
    exact hne hc.symm

/-- C9 amended: for every stream subscriber the generator emits an event
exactly when the latest aggregated row's `time` (its sequence index) differs
from the last emitted one, so observed rows with pairwise-distinct
consecutive sequence indices are all delivered, once each, in order — `n`
rows with strictly increasing indices yield exactly `n` events with zero
duplicates — but no heartbeat event is ever produced while the stream is
idle: the generator only sleeps and polls. -/
theorem c9_stream_dedup_no_heartbeat {F : Type}
    (ticks : List (Option (AggRow F))) :
    streamEmits ticks = (destutterByTime none (ticks.filterMap id)).map .data
    ∧ (∀ e ∈ streamEmits ticks, e.isHeartbeat = false)
    ∧ ((ticks.filterMap id).Chain' (fun a b => a.time ≠ b.time) →
        streamEmits ticks = (ticks.filterMap id).map .data) := by
  have h1 := streamEmitsFrom_destutter ticks none
  refine ⟨h1, ?_, ?_⟩
  · intro e he
    rw [streamEmits, h1] at he
    obtain ⟨r, _, rfl⟩ := List.mem_map.mp he
    rfl
  · intro hchain
    rw [streamEmits, h1,
      destutterByTime_of_chain _ none hchain (fun r1 _ => by simp)]

/-- A concrete aggregated row with sequence index 1. -/
def c9Row : AggRow (Fin 4) := ⟨fun _ => 5, 7, true, 1, 10⟩

/-- A concrete aggregated row with sequence index 2. -/
def c9RowB : AggRow (Fin 4) := ⟨fun _ => 6, 8, true, 2, 10⟩

/-- Witness for C9-amended: two rows with strictly increasing sequence
indices are both delivered. -/
theorem c9_stream_dedup_no_heartbeat_witness :
    streamEmits [some c9Row, some c9RowB]
      = ([some c9Row, some c9RowB].filterMap id).map StreamEvent.data :=
  (c9_stream_dedup_no_heartbeat [some c9Row, some c9RowB]).2.2
    (by simp [c9Row, c9RowB])

/-- C9 counterexample: over six polls of an unchanged latest row the
subscriber receives exactly one event and no heartbeat at all during the
idle polls — the generator of `stream_live_points` yields nothing while the
row is unchanged, so the claimed idle heartbeat does not exist. -/
theorem c9_no_heartbeat_while_idle :
    (streamEmits (List.replicate 6 (some c9Row))).length = 1
    ∧ (streamEmits (List.replicate 6 (some c9Row))).all
        (fun e => !e.isHeartbeat) = true :=
  ⟨rfl, rfl⟩

end TepDemo
